import Mathlib

/-! Shallow embedding of the Polymarket wallet-data reconciliation scripts of
    this repository: record normalization, wallet role resolution, position
    aggregation and local-day time windows
    (`backend/system/fetch_wallet_data.py`), and the on-chain fee
    reconciliation chain with its per-run memoization cache
    (`backend/system/fetch_fee_data.py`).

    Modelling conventions: Python floats are modelled as exact rationals,
    dict lookups as `Option` fields, Python `or`-chains and truth tests by
    explicit truthiness on optional values, fallible external fetches by
    `Except`, and exceptions by `Except.error`. -/

/-- Python `a or b` on two optional strings: the left value when it is
    truthy (present and non-empty), otherwise the right value as-is. -/
def orS : Option String → Option String → Option String
  | some s, b => if s = "" then b else some s
  | none, b => b

/-- Python `a or b` on optional rationals (Python floats): zero is falsy. -/
def orQ : Option ℚ → Option ℚ → Option ℚ
  | some q, b => if q = 0 then b else some q
  | none, b => b

/-- Python `a or b` on optional integers: zero is falsy. -/
def orZ : Option Int → Option Int → Option Int
  | some z, b => if z = 0 then b else some z
  | none, b => b

/-- Python truthiness of an optional string (`if s:`): present and non-empty. -/
def truthy : Option String → Bool
  | some s => s != ""
  | none => false

/-- Python truthiness of an optional integer: present and non-zero. -/
def truthyInt : Option Int → Bool
  | some z => z != 0
  | none => false

/-- Python `str.lower()` (structural, over the character list). -/
def strLower (s : String) : String := ⟨s.data.map Char.toLower⟩

/-- Python `str.upper()` (structural, over the character list). -/
def strUpper (s : String) : String := ⟨s.data.map Char.toUpper⟩

/-- Decimal digits to a natural number; `none` on a non-digit or on the
    empty list. -/
def natOfDecDigits (cs : List Char) : Option Nat :=
  match cs with
  | [] => none
  | _ =>
    cs.foldl
      (fun acc c =>
        match acc with
        | some a => if c.isDigit then some (a * 10 + (c.toNat - 48)) else none
        | none => none)
      (some 0)

/-- Hexadecimal digits to a natural number; `none` on a non-hex-digit or
    on the empty list. -/
def natOfHexDigits (cs : List Char) : Option Nat :=
  match cs with
  | [] => none
  | _ =>
    cs.foldl
      (fun acc c =>
        match acc with
        | some a =>
          if c.isDigit then some (a * 16 + (c.toNat - 48))
          else if 97 ≤ c.toNat ∧ c.toNat ≤ 102 then some (a * 16 + (c.toNat - 87))
          else if 65 ≤ c.toNat ∧ c.toNat ≤ 70 then some (a * 16 + (c.toNat - 55))
          else none
        | none => none)
      (some 0)

/-- Python `int(s)`: an optional sign followed by decimal digits. -/
def decToInt (s : String) : Option Int :=
  match s.data with
  | [] => none
  | c :: rest =>
    if c = '-' then (natOfDecDigits rest).map (fun n => -(n : Int))
    else if c = '+' then (natOfDecDigits rest).map (fun n => (n : Int))
    else (natOfDecDigits s.data).map (fun n => (n : Int))

/-- Split a character list at dashes (the `-` separators of `%Y-%m-%d`). -/
def splitDash : List Char → List Char → List (List Char)
  | [], acc => [acc.reverse]
  | c :: rest, acc =>
    if c = '-' then acc.reverse :: splitDash rest []
    else splitDash rest (c :: acc)

/-- A raw trade/activity record as consumed by `normalize_trade_record`:
    one optional field per dictionary key the Python code probes.  String
    keys are `Option String`, numeric keys (read through `float(...)` or
    `int(...)`) are `Option ℚ` / `Option Int`.  An absent key models both a
    missing key and an explicit JSON `null`, which `dict.get` conflates. -/
structure RawTrade where
  conditionId : Option String := none
  market : Option String := none
  marketId : Option String := none
  market_id : Option String := none
  eventId : Option String := none
  title : Option String := none
  marketTitle : Option String := none
  marketName : Option String := none
  label : Option String := none
  outcome : Option String := none
  outcomeLabel : Option String := none
  outcomeToken : Option String := none
  outcomeId : Option String := none
  outcome_id : Option String := none
  outcomeIndex : Option String := none
  price : Option ℚ := none
  size : Option ℚ := none
  quantity : Option ℚ := none
  amount : Option ℚ := none
  timestamp : Option Int := none
  ts : Option Int := none
  time : Option Int := none
  proxyWallet : Option String := none
  wallet : Option String := none
  user : Option String := none
  maker : Option String := none
  makerAddress : Option String := none
  taker : Option String := none
  takerAddress : Option String := none
  buyer : Option String := none
  seller : Option String := none
  side : Option String := none
  type : Option String := none
  action : Option String := none
deriving DecidableEq

/-- The canonical `NormalizedTrade` produced by `normalize_trade_record`
    (the `raw` back-pointer of the Python dict is omitted: no modelled code
    reads it). -/
structure NormalizedTrade where
  market_id : Option String
  market_title : Option String
  outcome_id : Option String
  outcome_label : Option String
  price : Option ℚ
  size : Option ℚ
  ts : Option Int
  user : Option String
  maker : Option String
  taker : Option String
  buyer : Option String
  seller : Option String
  side : Option String
deriving DecidableEq

/-- Python `str(v).lower() if v else None` applied to a wallet-like field:
    an absent or empty value becomes `none`, otherwise the lower-cased
    string. -/
def lowerWallet : Option String → Option String
  | some s => if s = "" then none else some (strLower s)
  | none => none

/-- `extract_ts_seconds`: first truthy of the `timestamp`/`ts`/`time` keys;
    values above `2 * 10 ^ 10` are interpreted as milliseconds and floor
    divided by 1000 (the operands are positive there, so Lean `Int`
    division agrees with Python `//`). -/
def extract_ts_seconds (t : RawTrade) : Option Int :=
  match orZ (orZ t.timestamp t.ts) t.time with
  | none => none
  | some v => some (if v > 2 * 10 ^ 10 then v / 1000 else v)

/-- `normalize_trade_record` of `backend/system/fetch_wallet_data.py`:
    per-field first-truthy resolution over the raw keys, lower-casing of
    wallet-like fields and of `side`, upper-cased outcome label as the
    last-resort outcome id. -/
def normalize_trade_record (t : RawTrade) : NormalizedTrade :=
  let market_id :=
    orS (orS (orS (orS t.conditionId t.market) t.marketId) t.market_id) t.eventId
  let market_title := orS (orS (orS t.title t.marketTitle) t.marketName) t.label
  let outcome_lbl := orS (orS t.outcome t.outcomeLabel) t.side
  let outcome_id :=
    orS (orS (orS (orS t.outcomeToken t.outcomeId) t.outcome_id) t.outcomeIndex)
      (outcome_lbl.map strUpper)
  let size := orQ (orQ t.size t.quantity) t.amount
  let proxy := orS (orS t.proxyWallet t.wallet) t.user
  let makerC := orS t.maker t.makerAddress
  let takerC := orS t.taker t.takerAddress
  let side := (orS (orS (orS t.side t.type) t.action) t.outcome).map strLower
  { market_id := market_id
    market_title := market_title
    outcome_id := outcome_id
    outcome_label := outcome_lbl
    price := t.price
    size := size
    ts := extract_ts_seconds t
    user := lowerWallet proxy
    maker := lowerWallet makerC
    taker := lowerWallet takerC
    buyer := lowerWallet t.buyer
    seller := lowerWallet t.seller
    side := side }

/-- `signed_quantity_for_wallet`: signed delta of the target wallet in one
    normalized trade.  Mirrors the Python control flow: absent/zero size is
    inert; a truthy `user` field short-circuits the whole resolution; the
    buyer/seller branch has no final `return`, so when neither matches the
    code falls through to the maker/taker branch. -/
def signed_quantity_for_wallet (n : NormalizedTrade) (wallet : String) : ℚ :=
  match n.size with
  | none => 0
  | some size =>
    if size = 0 then 0
    else
      let wl := strLower wallet
      if truthy n.user then
        if n.user = some wl then
          if n.side = some "buy" ∨ n.side = some "yes" then size
          else if n.side = some "sell" ∨ n.side = some "no" then -size
          else 0
        else 0
      else if (truthy n.buyer ∨ truthy n.seller) ∧ n.buyer = some wl then size
      else if (truthy n.buyer ∨ truthy n.seller) ∧ n.seller = some wl then -size
      else if (truthy n.maker ∨ truthy n.taker) ∧ truthy n.side then
        if n.side = some "buy" ∨ n.side = some "yes" then
          if n.taker = some wl then size
          else if n.maker = some wl then -size
          else 0
        else if n.side = some "sell" ∨ n.side = some "no" then
          if n.taker = some wl then -size
          else if n.maker = some wl then size
          else 0
        else 0
      else 0

/-- One accumulation bucket of `aggregate_delta_for_wallet`, before
    finalization (`avg_fill_price_sum` is the running price sum). -/
structure Bucket where
  market_id : String
  market_title : Option String
  outcome_id : String
  outcome_label : Option String
  net_shares : ℚ
  fills : Nat
  avg_fill_price_sum : ℚ
deriving DecidableEq

/-- The bucket dictionary, as an insertion-ordered association list keyed
    by `(market_id, outcome_id)` (Python dicts preserve insertion order). -/
abbrev BucketMap := List ((String × String) × Bucket)

/-- Dict lookup `bucket.get(key)`. -/
def lookupBucket (m : BucketMap) (k : String × String) : Option Bucket :=
  (m.find? (fun p => p.1 = k)).map (fun p => p.2)

/-- Dict assignment `bucket[key] = b`: replace in place when the key
    exists, else append. -/
def setBucket : BucketMap → String × String → Bucket → BucketMap
  | [], k, b => [(k, b)]
  | (k1, b1) :: rest, k, b =>
    if k1 = k then (k, b) :: rest else (k1, b1) :: setBucket rest k b

/-- The loop body of `aggregate_delta_for_wallet` for one raw trade:
    normalize, drop records with a falsy market or outcome id, drop
    zero-delta trades, otherwise get-or-create the bucket and accumulate
    delta, price sum and fill count. -/
def foldTrade (wallet : String) (m : BucketMap) (t : RawTrade) : BucketMap :=
  let n := normalize_trade_record t
  if ¬ truthy n.market_id ∨ ¬ truthy n.outcome_id then m
  else
    let dq := signed_quantity_for_wallet n wallet
    if dq = 0 then m
    else
      let mid := n.market_id.getD ""
      let oid := n.outcome_id.getD ""
      let key := (mid, oid)
      let b :=
        match lookupBucket m key with
        | some b => b
        | none =>
          { market_id := mid
            market_title := n.market_title
            outcome_id := oid
            outcome_label := n.outcome_label
            net_shares := 0
            fills := 0
            avg_fill_price_sum := 0 }
      let b :=
        { b with
          net_shares := b.net_shares + dq
          avg_fill_price_sum :=
            b.avg_fill_price_sum + (match n.price with | some p => p | none => 0)
          fills := b.fills + 1 }
      setBucket m key b

/-- One finalized output row of `aggregate_delta_for_wallet`. -/
structure PositionRow where
  market_id : String
  market_title : Option String
  outcome_id : String
  outcome_label : Option String
  net_shares : ℚ
  fills : Nat
  avg_fill_price : ℚ
deriving DecidableEq

/-- `aggregate_delta_for_wallet`: fold all trades into the bucket map, then
    finalize each bucket with `avg_fill_price = price_sum / max(fills, 1)`. -/
def aggregate_delta_for_wallet (trades : List RawTrade) (wallet : String) :
    List PositionRow :=
  let bucket := trades.foldl (foldTrade wallet) []
  bucket.map (fun kv =>
    { market_id := kv.2.market_id
      market_title := kv.2.market_title
      outcome_id := kv.2.outcome_id
      outcome_label := kv.2.outcome_label
      net_shares := kv.2.net_shares
      fills := kv.2.fills
      avg_fill_price := kv.2.avg_fill_price_sum / ((max kv.2.fills 1 : Nat) : ℚ) })

/-- A parsed `YYYY-MM-DD` local calendar date. -/
structure Date where
  y : Nat
  m : Nat
  d : Nat
deriving DecidableEq

/-- Gregorian leap-year rule. -/
def isLeap (y : Nat) : Bool := (y % 4 = 0 ∧ y % 100 ≠ 0) ∨ y % 400 = 0

/-- Days in a month of the proleptic Gregorian calendar. -/
def daysInMonth (y m : Nat) : Nat :=
  if m = 2 then (if isLeap y then 29 else 28)
  else if m = 4 ∨ m = 6 ∨ m = 9 ∨ m = 11 then 30
  else 31

/-- `parse_date_local`: strict `%Y-%m-%d` parsing as Python
    `datetime.strptime` performs it — a 4-digit year, 1-2 digit month and
    day, and calendar validation by the `datetime` constructor.  Python
    raises `ValueError` on failure; this is modelled as `none`. -/
def parse_date_local (s : String) : Option Date :=
  match splitDash s.data [] with
  | [ys, ms, ds] =>
    if ys.length = 4 ∧ 1 ≤ ms.length ∧ ms.length ≤ 2 ∧ 1 ≤ ds.length ∧ ds.length ≤ 2 then
      match natOfDecDigits ys, natOfDecDigits ms, natOfDecDigits ds with
      | some y, some m, some d =>
        if 1 ≤ y ∧ 1 ≤ m ∧ m ≤ 12 ∧ 1 ≤ d ∧ d ≤ daysInMonth y m then
          some ⟨y, m, d⟩
        else none
      | _, _, _ => none
    else none
  | _ => none

/-- Civil day number (days since 1970-01-01) of a Gregorian date, the
    standard days-from-civil computation Python `datetime` date arithmetic
    is equivalent to.  All intermediate divisions act on non-negative
    values for the validated years `y ≥ 1`. -/
def daysFromCivil (dt : Date) : Int :=
  let ys : Int := (dt.y : Int) - (if dt.m ≤ 2 then 1 else 0)
  let era : Int := ys / 400
  let yoe : Int := ys - era * 400
  let mp : Int := ((dt.m : Int) + 9) % 12
  let doy : Int := (153 * mp + 2) / 5 + (dt.d : Int) - 1
  let doe : Int := yoe * 365 + yoe / 4 - yoe / 100 + doy
  era * 146097 + doe - 719468

/-- The while-loop of `day_windows_local_to_utc`, on civil day numbers.
    Python iterates an aware local-midnight datetime `cur` from the start
    date while `cur < end_local_excl` (instant comparison, which on local
    midnights coincides with day order), advancing exactly one calendar day
    per iteration; the loop therefore runs once per day, which the fuel
    argument counts.  `tzOff day` is the UTC offset in seconds of the
    reference time zone (Europe/Amsterdam) at the local midnight of that
    civil day — the per-boundary `astimezone(utc).timestamp()` conversion
    is `day * 86400 - tzOff day`.  The offset data comes from the IANA tz
    database, external to the repository, so it is a parameter here. -/
def day_windows_loop (tzOff : Int → Int) : Nat → Int → Int → List (Int × Int)
  | 0, _, _ => []
  | Nat.succ fuel, cur, e =>
    if cur < e then
      let nxt := min (cur + 1) e
      (cur * 86400 - tzOff cur, nxt * 86400 - tzOff nxt) ::
        day_windows_loop tzOff fuel nxt e
    else []

/-- `day_windows_local_to_utc`: parse both dates (unparseable dates raise
    in Python, modelled as `none`), then emit one half-open UTC interval
    per local day from `from_date` through `to_date` inclusive. -/
def day_windows_local_to_utc (tzOff : Int → Int) (from_date to_date : String) :
    Option (List (Int × Int)) :=
  match parse_date_local from_date, parse_date_local to_date with
  | some a, some b =>
    let s := daysFromCivil a
    let e := daysFromCivil b + 1
    some (day_windows_loop tzOff (e - s).toNat s e)
  | _, _ => none

/-- A transaction receipt, keeping the two fields `compute_fee` reads
    (`none` models a missing key, a JSON `null`, and also an absent or
    empty receipt, which `if not receipt` conflates with `None`). -/
structure Receipt where
  gasUsed : Option String := none
  effectiveGasPrice : Option String := none
deriving DecidableEq

/-- A transaction record, keeping the one field `compute_fee` reads. -/
structure TxData where
  gasPrice : Option String := none
deriving DecidableEq

/-- The result dictionary of `compute_fee` (a `FeeRecord`).  `feeMATIC` is
    `feeWei / 10 ^ 18`, modelled exactly in ℚ. -/
structure FeeRecord where
  gasUsed : Option Int
  effectiveGasPrice : Option Int
  gasPrice : Option Int
  feeWei : Option Int
  feeMATIC : Option ℚ
  note : String
deriving DecidableEq

/-- `hex_to_int` of `backend/system/fetch_fee_data.py`: `int(s, 16)` when
    the string starts with `0x`/`0X`, else `int(s)`; any parse failure
    yields `None`. -/
def hex_to_int (v : Option String) : Option Int :=
  match v with
  | none => none
  | some s =>
    match s.data with
    | '0' :: c :: rest =>
      if c = 'x' ∨ c = 'X' then (natOfHexDigits rest).map (fun n => (n : Int))
      else decToInt s
    | _ => decToInt s

/-- The two external Etherscan fetches `compute_fee` performs for one
    transaction hash: the receipt (`get_tx_receipt`) and the transaction
    record (`get_tx_data`).  `Except.error msg` models a transport
    exception raised while fetching. -/
structure FeeEnv where
  receipt : Except String (Option Receipt)
  txdata : Except String (Option TxData)

/-- The shared tail of `compute_fee` after `used_price` and `note` are
    settled: when both `gas_used` and `used_price` decoded, `fee_wei =
    gas_used * used_price` and `feeMATIC = fee_wei / 10 ^ 18`; otherwise
    the fee fields stay null and the note is retained.  The reported
    `gasPrice` column is `gas_price_legacy if eff_price is None else
    eff_price` on the success path and `gas_price_legacy` on the
    fee-less path, exactly as the two Python return statements write it. -/
def fee_from_parts (gas_used eff_price used_price gas_price_legacy : Option Int)
    (note : String) : FeeRecord :=
  match gas_used, used_price with
  | some g, some p =>
    { gasUsed := some g
      effectiveGasPrice := eff_price
      gasPrice := (match eff_price with
                   | none => gas_price_legacy
                   | some _ => eff_price)
      feeWei := some (g * p)
      feeMATIC := some (((g * p : Int) : ℚ) / 10 ^ 18)
      note := note }
  | _, _ =>
    { gasUsed := gas_used, effectiveGasPrice := eff_price,
      gasPrice := gas_price_legacy, feeWei := none,
      feeMATIC := none, note := note }

/-- `compute_fee`: resolve the gas fee of one transaction.  A falsy
    receipt is terminal (`no_receipt`); a decoded `effectiveGasPrice` wins
    (`effectiveGasPrice`); otherwise the transaction record is fetched and
    a truthy legacy `gasPrice` is used (`fallback_gasPrice`), else
    `no_price_found`.  Transport exceptions during either fetch propagate
    as `Except.error`. -/
def compute_fee (env : FeeEnv) : Except String FeeRecord :=
  match env.receipt with
  | Except.error e => Except.error e
  | Except.ok none =>
    Except.ok { gasUsed := none, effectiveGasPrice := none, gasPrice := none,
                feeWei := none, feeMATIC := none, note := "no_receipt" }
  | Except.ok (some receipt) =>
    let gas_used := hex_to_int receipt.gasUsed
    match hex_to_int receipt.effectiveGasPrice with
    | some p =>
      Except.ok (fee_from_parts gas_used (some p) (some p) none "effectiveGasPrice")
    | none =>
      match env.txdata with
      | Except.error e => Except.error e
      | Except.ok txOpt =>
        let gpl :=
          match txOpt with
          | some tx => hex_to_int tx.gasPrice
          | none => none
        Except.ok (fee_from_parts gas_used none gpl gpl
          (if truthyInt gpl then "fallback_gasPrice" else "no_price_found"))

/-- The `try/except` wrapper around `compute_fee` in `main`: a transport
    exception collapses the resolution to an error record with note
    `error:<message>` and no numeric fields, and nothing propagates to the
    caller. -/
def resolve_fee (env : FeeEnv) : FeeRecord :=
  match compute_fee env with
  | Except.ok fee => fee
  | Except.error e =>
    { gasUsed := none, effectiveGasPrice := none, gasPrice := none,
      feeWei := none, feeMATIC := none, note := "error:" ++ e }

/-- `compute_fee` specialized to fetches that do not throw, for stating
    facts about the pure fallback chain. -/
def compute_fee_ok (r : Option Receipt) (tx : Option TxData) : FeeRecord :=
  resolve_fee { receipt := Except.ok r, txdata := Except.ok tx }

/-- One merged-activity row, keeping the transaction-hash keys the fee
    enrichment loop of `main` probes. -/
structure Activity where
  transactionHash : Option String := none
  txHash : Option String := none
  transaction_hash : Option String := none
deriving DecidableEq

/-- The transaction-hash resolution of the enrichment loop:
    `m.get("transactionHash") or m.get("txHash") or m.get("transaction_hash")`. -/
def getTxHash (m : Activity) : Option String :=
  orS (orS m.transactionHash m.txHash) m.transaction_hash

/-- Mutable state of the enrichment loop in `main`: the per-run
    `tx_cache` dictionary (insertion-ordered) plus the trace of hashes for
    which `compute_fee` was actually invoked. -/
structure EnrichState where
  cache : List (String × FeeRecord)
  fetches : List String

/-- Cache lookup `tx in tx_cache`. -/
def lookupFee (c : List (String × FeeRecord)) (h : String) : Option FeeRecord :=
  (c.find? (fun p => p.1 == h)).map (fun p => p.2)

/-- One iteration of the enrichment loop in `main` of
    `backend/system/fetch_fee_data.py`: resolve the transaction hash (a
    falsy hash skips fee resolution entirely), reuse the cached record when
    present, otherwise invoke the fee resolution (`env`, standing for
    `compute_fee` under its `try/except`) and cache the result.  Returns
    the new state and the fee record attached to this row, if any. -/
def enrichStep (env : String → FeeRecord) (st : EnrichState) (m : Activity) :
    EnrichState × Option FeeRecord :=
  match getTxHash m with
  | none => (st, none)
  | some h =>
    if h = "" then (st, none)
    else
      match lookupFee st.cache h with
      | some fee => (st, some fee)
      | none =>
        let fee := env h
        ({ cache := st.cache ++ [(h, fee)], fetches := st.fetches ++ [h] },
         some fee)

/-- The whole enrichment loop: fold `enrichStep` over the activity rows,
    collecting the per-row fee records. -/
def enrichRun (env : String → FeeRecord) (st : EnrichState) :
    List Activity → EnrichState × List (Option FeeRecord)
  | [] => (st, [])
  | m :: ms =>
    let s1 := enrichStep env st m
    let rest := enrichRun env s1.1 ms
    (rest.1, s1.2 :: rest.2)

/-- Invariant of the enrichment loop state: the fetch trace is exactly the
    cache's key sequence, no hash was fetched twice, and every cached
    record is the fee resolution of its hash. -/
def CacheFaithful (env : String → FeeRecord) (st : EnrichState) : Prop :=
  st.fetches = st.cache.map Prod.fst ∧ st.fetches.Nodup ∧
    ∀ p ∈ st.cache, p.2 = env p.1

/-- Spec-side field resolution: the first truthy candidate wins; when no
    candidate is truthy the chain degenerates to its last candidate,
    exactly as a Python `or`-chain does. -/
def firstTruthyOrLast : List (Option String) → Option String
  | [] => none
  | [x] => x
  | x :: xs => if truthy x then x else firstTruthyOrLast xs

/-- First raw trade of the end-to-end scenario: buy 10 at 0.4. -/
def scenarioTrade1 : RawTrade :=
  { conditionId := some "M1", outcomeId := some "O1", user := some "0xw",
    side := some "buy", size := some 10, price := some (2 / 5) }

/-- Second raw trade of the end-to-end scenario: sell 4 at 0.5. -/
def scenarioTrade2 : RawTrade :=
  { conditionId := some "M1", outcomeId := some "O1", user := some "0xw",
    side := some "sell", size := some 4, price := some (1 / 2) }

/-- The raw trade of the role-precedence scenario: proxy user together
    with maker/taker fields. -/
def precedenceTrade : RawTrade :=
  { user := some "0xa", side := some "sell", maker := some "0xb",
    taker := some "0xa", size := some 3 }

/-- A raw trade with a buyer, a maker/taker pair and a side, but no proxy
    user: the wallet matches neither buyer nor seller, so the Python code
    falls through to the maker/taker rule. -/
def fallthroughTrade : RawTrade :=
  { buyer := some "0xB", maker := some "0xM", taker := some "0xT",
    side := some "buy", size := some 5 }

/-- A raw record whose `conditionId` is present (non-null) but empty, with
    a truthy `market` behind it. -/
def emptyConditionTrade : RawTrade :=
  { conditionId := some "", market := some "X" }

/-- A receipt with decodable `gasUsed` and no `effectiveGasPrice`. -/
def receiptNoEff : Receipt := { gasUsed := some "0x1", effectiveGasPrice := none }

/-- A transaction record whose legacy gas price decodes to zero. -/
def txZeroGas : TxData := { gasPrice := some "0x0" }

/-- A fee environment whose receipt fetch raises a transport exception. -/
def envReceiptBoom : FeeEnv :=
  { receipt := Except.error "boom", txdata := Except.ok none }

/-- A fee environment whose receipt lacks a usable price and whose
    transaction fetch raises a transport exception. -/
def envTxBoom : FeeEnv :=
  { receipt := Except.ok (some { gasUsed := some "0x1", effectiveGasPrice := none }),
    txdata := Except.error "late" }

/-- A fee resolution oracle for the memoization witness: the note records
    the hash so distinct hashes give distinct records. -/
def witnessFeeOracle : String → FeeRecord :=
  fun h =>
    { gasUsed := none, effectiveGasPrice := none, gasPrice := none,
      feeWei := none, feeMATIC := none, note := h }

/-- Two activity rows sharing one transaction hash. -/
def witnessActivities : List Activity :=
  [{ transactionHash := some "0xabc" }, { txHash := some "0xabc" }]

/-- The single-trade input of the bucket-safety witness. -/
def witnessRow : PositionRow :=
  { market_id := "M1", market_title := none, outcome_id := "O1",
    outcome_label := some "buy", net_shares := 10, fills := 1,
    avg_fill_price := 2 / 5 }

theorem orS_eq (a b : Option String) : orS a b = if truthy a then a else b := by
  cases a with
  | none => simp [orS, truthy]
  | some s => by_cases h : s = "" <;> simp [orS, truthy, h]

theorem orS_assoc (a b c : Option String) :
    orS (orS a b) c = orS a (orS b c) := by
  cases a with
  | none => rfl
  | some s => by_cases h : s = "" <;> simp [orS, h]

/-- C1.  End-to-end aggregation scenario: the two scenario trades for
    market M1 / outcome O1, aggregated for wallet 0xW, produce exactly one
    bucket, keyed (M1, O1), with net_shares 6, fills 2 and avg_fill_price
    0.45 (= 9/20 exactly). -/
theorem aggregate_end_to_end_scenario :
    aggregate_delta_for_wallet [scenarioTrade1, scenarioTrade2] "0xW" =
      [{ market_id := "M1", market_title := none, outcome_id := "O1",
         outcome_label := some "buy", net_shares := 6, fills := 2,
         avg_fill_price := 9 / 20 }] := by
  with_unfolding_all decide

/-- C2.  Proxy-wallet precedence: for a normalized trade with a truthy
    `user` field and non-zero size, the resolver returns +size when the
    wallet matches `user` and side is buy/yes, -size when it matches and
    side is sell/no, and 0 in every other case; the
    buyer/seller/maker/taker fields are never consulted (blanking them
    does not change the result). -/
theorem proxy_wallet_precedence (n : NormalizedTrade) (wallet : String) (s : ℚ)
    (hu : truthy n.user = true) (hs : n.size = some s) (hz : s ≠ 0) :
    (signed_quantity_for_wallet n wallet =
      if n.user = some (strLower wallet) then
        if n.side = some "buy" ∨ n.side = some "yes" then s
        else if n.side = some "sell" ∨ n.side = some "no" then -s
        else 0
      else 0) ∧
    signed_quantity_for_wallet n wallet =
      signed_quantity_for_wallet
        { n with maker := none, taker := none, buyer := none, seller := none }
        wallet := by
  constructor
  · simp [signed_quantity_for_wallet, hs, hz, hu]
  · simp [signed_quantity_for_wallet, hs, hz, hu]

/-- Witness for C2 at the role-precedence scenario trade: user 0xa, side
    sell, size 3, with maker 0xb and taker 0xa also present, resolves to
    -3 for wallet 0xA via the proxy rule. -/
theorem proxy_wallet_precedence_witness :
    signed_quantity_for_wallet (normalize_trade_record precedenceTrade) "0xA" = -3 := by
  have h :=
    (proxy_wallet_precedence (normalize_trade_record precedenceTrade) "0xA" 3
      (by with_unfolding_all decide) (by with_unfolding_all decide)
      (by with_unfolding_all decide)).1
  rw [h]
  with_unfolding_all decide

/-- C3 counterexample: a normalized trade with no `user`, buyer 0xb
    present, and target wallet 0xT matching neither buyer nor seller; the
    claim predicts 0, but the code consults the maker/taker rule and
    returns +5. -/
theorem buyer_seller_exclusivity_cex :
    signed_quantity_for_wallet (normalize_trade_record fallthroughTrade) "0xT" = 5 ∧
    signed_quantity_for_wallet (normalize_trade_record fallthroughTrade) "0xT" ≠ 0 := by
  with_unfolding_all decide

/-- C3 amended: with no truthy `user`, non-zero size and a truthy buyer or
    seller, the resolver returns +size when the wallet matches the buyer,
    -size when it matches the seller, and otherwise falls through to the
    maker/taker rule (the trade evaluated as if buyer and seller were
    absent) rather than returning 0. -/
theorem buyer_seller_fallthrough (n : NormalizedTrade) (wallet : String) (s : ℚ)
    (hu : truthy n.user = false) (hs : n.size = some s) (hz : s ≠ 0)
    (hbs : truthy n.buyer = true ∨ truthy n.seller = true) :
    signed_quantity_for_wallet n wallet =
      if n.buyer = some (strLower wallet) then s
      else if n.seller = some (strLower wallet) then -s
      else signed_quantity_for_wallet { n with buyer := none, seller := none }
             wallet := by
  have hu2 : ¬ (truthy n.user = true) := by simp [hu]
  by_cases hb : n.buyer = some (strLower wallet)
  · have c1 : (truthy n.buyer = true ∨ truthy n.seller = true) ∧
        n.buyer = some (strLower wallet) := ⟨hbs, hb⟩
    rw [if_pos hb]
    simp only [signed_quantity_for_wallet, hs]
    rw [if_neg hz, if_neg hu2, if_pos c1]
  · by_cases hsl : n.seller = some (strLower wallet)
    · have c2 : (truthy n.buyer = true ∨ truthy n.seller = true) ∧
          n.seller = some (strLower wallet) := ⟨hbs, hsl⟩
      have c1n : ¬ ((truthy n.buyer = true ∨ truthy n.seller = true) ∧
          n.buyer = some (strLower wallet)) := fun h => hb h.2
      rw [if_neg hb, if_pos hsl]
      simp only [signed_quantity_for_wallet, hs]
      rw [if_neg hz, if_neg hu2, if_neg c1n, if_pos c2]
    · have c1n : ¬ ((truthy n.buyer = true ∨ truthy n.seller = true) ∧
          n.buyer = some (strLower wallet)) := fun h => hb h.2
      have c2n : ¬ ((truthy n.buyer = true ∨ truthy n.seller = true) ∧
          n.seller = some (strLower wallet)) := fun h => hsl h.2
      rw [if_neg hb, if_neg hsl]
      simp only [signed_quantity_for_wallet, hs]
      rw [if_neg hz, if_neg hz, if_neg hu2, if_neg hu2, if_neg c1n, if_neg c2n]
      simp [truthy]

/-- Witness for C3 at the fall-through trade: wallet 0xM matches neither
    buyer nor seller, and the maker/taker rule then assigns -5. -/
theorem buyer_seller_fallthrough_witness :
    signed_quantity_for_wallet (normalize_trade_record fallthroughTrade) "0xM" = -5 := by
  have h :=
    buyer_seller_fallthrough (normalize_trade_record fallthroughTrade) "0xM" 5
      (by with_unfolding_all decide) (by with_unfolding_all decide)
      (by with_unfolding_all decide) (Or.inl (by with_unfolding_all decide))
  rw [h]
  with_unfolding_all decide

/-- C4.  Zero-delta exclusion: folding a trade whose resolved delta is
    exactly 0 leaves the bucket map byte-for-byte unchanged: no bucket is
    created, nothing is mutated, no fill count is incremented. -/
theorem zero_delta_exclusion (m : BucketMap) (wallet : String) (t : RawTrade)
    (h : signed_quantity_for_wallet (normalize_trade_record t) wallet = 0) :
    foldTrade wallet m t = m := by
  simp only [foldTrade]
  split
  · rfl
  · simp [h]

/-- Witness for C4: the all-absent raw record resolves to delta 0 and
    leaves the empty bucket map unchanged. -/
theorem zero_delta_exclusion_witness :
    foldTrade "0xW" [] ({} : RawTrade) = [] :=
  zero_delta_exclusion [] "0xW" {} (by decide)

/-- C8 counterexample: a record whose `conditionId` is present (non-null)
    but empty; the claim predicts `market_id` is that first non-null value
    (the empty string), but the normalizer skips falsy values and yields
    the `market` field instead. -/
theorem market_id_non_null_cex :
    emptyConditionTrade.conditionId = some "" ∧
    (normalize_trade_record emptyConditionTrade).market_id = some "X" := by
  decide

/-- C8 amended: `market_id` is the first truthy (non-null and non-empty)
    value among conditionId, market, marketId, market_id, eventId in that
    order; when no candidate is truthy the chain degenerates to the last
    candidate, `eventId`. -/
theorem market_id_resolution (t : RawTrade) :
    (normalize_trade_record t).market_id =
      firstTruthyOrLast [t.conditionId, t.market, t.marketId, t.market_id,
        t.eventId] := by
  simp only [normalize_trade_record]
  rw [orS_assoc, orS_assoc, orS_assoc]
  simp [firstTruthyOrLast, orS_eq]

theorem mem_setBucket :
    ∀ (m : BucketMap) (k : String × String) (b : Bucket)
      (p : (String × String) × Bucket),
      p ∈ setBucket m k b → p = (k, b) ∨ p ∈ m := by
  intro m
  induction m with
  | nil =>
    intro k b p hp
    simp [setBucket] at hp
    exact Or.inl hp
  | cons hd tl ih =>
    intro k b p hp
    obtain ⟨k1, b1⟩ := hd
    simp only [setBucket] at hp
    by_cases hk : k1 = k
    · rw [if_pos hk] at hp
      rcases List.mem_cons.mp hp with h | h
      · exact Or.inl h
      · exact Or.inr (List.mem_cons.mpr (Or.inr h))
    · rw [if_neg hk] at hp
      rcases List.mem_cons.mp hp with h | h
      · exact Or.inr (List.mem_cons.mpr (Or.inl h))
      · rcases ih k b p h with h2 | h2
        · exact Or.inl h2
        · exact Or.inr (List.mem_cons.mpr (Or.inr h2))

theorem foldTrade_fills (wallet : String) (m : BucketMap) (t : RawTrade)
    (h : ∀ p ∈ m, 1 ≤ p.2.fills) :
    ∀ p ∈ foldTrade wallet m t, 1 ≤ p.2.fills := by
  intro p hp
  simp only [foldTrade] at hp
  split at hp
  · exact h p hp
  · split at hp
    · exact h p hp
    · rcases mem_setBucket _ _ _ p hp with h1 | h1
      · rw [h1]
        simp
      · exact h p h1

theorem foldl_fills (wallet : String) :
    ∀ (trades : List RawTrade) (m : BucketMap),
      (∀ p ∈ m, 1 ≤ p.2.fills) →
      ∀ p ∈ trades.foldl (foldTrade wallet) m, 1 ≤ p.2.fills := by
  intro trades
  induction trades with
  | nil =>
    intro m h p hp
    rw [List.foldl_nil] at hp
    exact h p hp
  | cons t ts ih =>
    intro m h p hp
    rw [List.foldl_cons] at hp
    exact ih (foldTrade wallet m t) (foldTrade_fills wallet m t h) p hp

/-- C10.  Bucket safety: every bucket in the aggregator's output has
    fills ≥ 1 (a bucket is only created by a trade contributing a non-zero
    delta, which immediately increments fills), so the max(fills, 1) guard
    in the average division is the identity and the division is never by
    zero. -/
theorem bucket_fills_positive (trades : List RawTrade) (wallet : String)
    (r : PositionRow) (hr : r ∈ aggregate_delta_for_wallet trades wallet) :
    1 ≤ r.fills ∧ max r.fills 1 = r.fills := by
  simp only [aggregate_delta_for_wallet] at hr
  rcases List.mem_map.mp hr with ⟨kv, hkv, hrow⟩
  have h1 : 1 ≤ kv.2.fills :=
    foldl_fills wallet trades [] (by intro p hp; simp at hp) kv hkv
  subst hrow
  exact ⟨h1, Nat.max_eq_left h1⟩

/-- Witness for C10 at a one-trade aggregation. -/
theorem bucket_fills_positive_witness :
    1 ≤ witnessRow.fills ∧ max witnessRow.fills 1 = witnessRow.fills :=
  bucket_fills_positive [scenarioTrade1] "0xW" witnessRow
    (by with_unfolding_all decide)

theorem day_windows_loop_head (tzOff : Int → Int) :
    ∀ (fuel : Nat) (cur e : Int) (p : Int × Int) (l : List (Int × Int)),
      day_windows_loop tzOff fuel cur e = p :: l →
      p.1 = cur * 86400 - tzOff cur := by
  intro fuel cur e p l h
  cases fuel with
  | zero => simp [day_windows_loop] at h
  | succ fuel =>
    simp only [day_windows_loop] at h
    split at h
    · injection h with h1 _
      rw [← h1]
    · exact List.noConfusion h

theorem day_windows_loop_chain (tzOff : Int → Int) :
    ∀ (fuel : Nat) (cur e : Int),
      List.Chain' (fun a b : Int × Int => a.2 = b.1)
        (day_windows_loop tzOff fuel cur e) := by
  intro fuel
  induction fuel with
  | zero => intro cur e; simp [day_windows_loop]
  | succ fuel ih =>
    intro cur e
    simp only [day_windows_loop]
    split
    · refine List.chain'_cons'.mpr ⟨?_, ih _ e⟩
      intro y hy
      cases hh : day_windows_loop tzOff fuel (min (cur + 1) e) e with
      | nil => rw [hh] at hy; simp at hy
      | cons q l =>
        rw [hh] at hy
        simp at hy
        rw [← hy]
        exact (day_windows_loop_head tzOff fuel _ e q l hh).symm
    · simp

/-- C5.  Window coverage and contiguity: for a parseable date `d`, the
    window list for `from = to = d` is exactly one interval from the local
    midnight of `d` to the local midnight of the next day (each boundary
    converted with its own offset); and for any parseable pair of dates,
    consecutive intervals are contiguous: each interval's end equals the
    next interval's start, leaving no gaps and no overlaps. -/
theorem window_coverage_contiguity :
    (∀ (tzOff : Int → Int) (f : String) (d : Date),
        parse_date_local f = some d →
        day_windows_local_to_utc tzOff f f =
          some [(daysFromCivil d * 86400 - tzOff (daysFromCivil d),
                 (daysFromCivil d + 1) * 86400 - tzOff (daysFromCivil d + 1))]) ∧
    (∀ (tzOff : Int → Int) (f t : String) (l : List (Int × Int)),
        day_windows_local_to_utc tzOff f t = some l →
        List.Chain' (fun a b : Int × Int => a.2 = b.1) l) := by
  constructor
  · intro tzOff f d hp
    have h1 : (daysFromCivil d + 1 - daysFromCivil d).toNat = 1 := by omega
    have h2 : daysFromCivil d < daysFromCivil d + 1 := by omega
    simp [day_windows_local_to_utc, hp, h1, day_windows_loop, h2]
  · intro tzOff f t l h
    simp only [day_windows_local_to_utc] at h
    cases hf : parse_date_local f with
    | none => rw [hf] at h; exact Option.noConfusion h
    | some a =>
      cases ht : parse_date_local t with
      | none => rw [hf, ht] at h; exact Option.noConfusion h
      | some b =>
        rw [hf, ht] at h
        injection h with h2
        rw [← h2]
        exact day_windows_loop_chain tzOff _ _ _

/-- Witness for C5 at 2024-03-05 (winter offset +3600 for the whole day):
    exactly one interval, from 1709593200 to 1709679600, and it is
    trivially contiguous. -/
theorem window_coverage_contiguity_witness :
    day_windows_local_to_utc (fun _ => 3600) "2024-03-05" "2024-03-05" =
      some [((1709593200 : Int), (1709679600 : Int))] ∧
    List.Chain' (fun a b : Int × Int => a.2 = b.1)
      [((1709593200 : Int), (1709679600 : Int))] := by
  have h := window_coverage_contiguity.1 (fun _ => 3600) "2024-03-05"
    ⟨2024, 3, 5⟩ (by decide)
  have heq : day_windows_local_to_utc (fun _ => 3600) "2024-03-05" "2024-03-05" =
      some [((1709593200 : Int), (1709679600 : Int))] := by
    rw [h]; decide
  exact ⟨heq,
    window_coverage_contiguity.2 (fun _ => 3600) "2024-03-05" "2024-03-05" _ heq⟩

theorem fee_from_parts_note (gu ep up gl : Option Int) (note : String) :
    (fee_from_parts gu ep up gl note).note = note := by
  cases gu <;> cases up <;> rfl

theorem fee_from_parts_gasPrice_effNone (gu up gl : Option Int) (note : String) :
    (fee_from_parts gu none up gl note).gasPrice = gl := by
  cases gu <;> cases up <;> rfl

theorem fee_from_parts_feeWei (g p : Int) (ep gl : Option Int) (note : String) :
    (fee_from_parts (some g) ep (some p) gl note).feeWei = some (g * p) := rfl

theorem fee_from_parts_feeWei_noPrice (gu ep gl : Option Int) (note : String) :
    (fee_from_parts gu ep none gl note).feeWei = none := by
  cases gu <;> rfl

theorem compute_fee_ok_eff_none (r : Receipt) (tx : TxData)
    (heff : r.effectiveGasPrice = none) :
    compute_fee_ok (some r) (some tx) =
      fee_from_parts (hex_to_int r.gasUsed) none (hex_to_int tx.gasPrice)
        (hex_to_int tx.gasPrice)
        (if truthyInt (hex_to_int tx.gasPrice) then "fallback_gasPrice"
         else "no_price_found") := by
  have hn : hex_to_int (none : Option String) = none := rfl
  simp [compute_fee_ok, resolve_fee, compute_fee, heff, hn]

theorem compute_fee_ok_eff_none_no_tx (r : Receipt)
    (heff : r.effectiveGasPrice = none) :
    compute_fee_ok (some r) none =
      fee_from_parts (hex_to_int r.gasUsed) none none none "no_price_found" := by
  have hn : hex_to_int (none : Option String) = none := rfl
  simp [compute_fee_ok, resolve_fee, compute_fee, heff, hn, truthyInt]

/-- C6 counterexample: a receipt with no effective gas price and a
    transaction whose legacy gas price is present but decodes to 0; the
    claim predicts note `fallback_gasPrice`, but the Python truthiness
    check on the decoded value yields `no_price_found` (while still using
    the zero price for a zero fee). -/
theorem fee_fallback_zero_gas_cex :
    compute_fee_ok (some receiptNoEff) (some txZeroGas) =
      { gasUsed := some 1, effectiveGasPrice := none, gasPrice := some 0,
        feeWei := some 0, feeMATIC := some 0, note := "no_price_found" } ∧
    txZeroGas.gasPrice = some "0x0" ∧
    (compute_fee_ok (some receiptNoEff) (some txZeroGas)).note ≠
      "fallback_gasPrice" := by
  with_unfolding_all decide

/-- C6 amended: with `effective_gas_price` absent, a transaction gas price
    decoding to a non-zero integer (such as "0x5") yields note
    `fallback_gasPrice` with that price used (and `fee_native_wei =
    gas_used * price` when gas_used decoded); an absent transaction record
    or absent gas price yields `no_price_found` with a null price and no
    fee; a gas price decoding to exactly zero also yields `no_price_found`
    (with price 0 retained), not `fallback_gasPrice`. -/
theorem fee_fallback_order (r : Receipt) (tx : TxData)
    (heff : r.effectiveGasPrice = none) :
    (tx.gasPrice = some "0x5" →
      (compute_fee_ok (some r) (some tx)).note = "fallback_gasPrice" ∧
      (compute_fee_ok (some r) (some tx)).gasPrice = some 5 ∧
      ∀ g, hex_to_int r.gasUsed = some g →
        (compute_fee_ok (some r) (some tx)).feeWei = some (g * 5)) ∧
    (∀ p, hex_to_int tx.gasPrice = some p → p ≠ 0 →
      (compute_fee_ok (some r) (some tx)).note = "fallback_gasPrice" ∧
      (compute_fee_ok (some r) (some tx)).gasPrice = some p) ∧
    (hex_to_int tx.gasPrice = some 0 →
      (compute_fee_ok (some r) (some tx)).note = "no_price_found" ∧
      (compute_fee_ok (some r) (some tx)).gasPrice = some 0) ∧
    (hex_to_int tx.gasPrice = none →
      (compute_fee_ok (some r) (some tx)).note = "no_price_found" ∧
      (compute_fee_ok (some r) (some tx)).gasPrice = none ∧
      (compute_fee_ok (some r) (some tx)).feeWei = none) ∧
    ((compute_fee_ok (some r) none).note = "no_price_found" ∧
     (compute_fee_ok (some r) none).gasPrice = none ∧
     (compute_fee_ok (some r) none).feeWei = none) := by
  have step := compute_fee_ok_eff_none r tx heff
  have step2 := compute_fee_ok_eff_none_no_tx r heff
  refine ⟨?_, ?_, ?_, ?_, ?_⟩
  · intro hgp
    have h5 : hex_to_int tx.gasPrice = some 5 := by rw [hgp]; decide
    have hnote : (if truthyInt (hex_to_int tx.gasPrice) then "fallback_gasPrice"
        else "no_price_found") = "fallback_gasPrice" := by rw [h5]; decide
    refine ⟨?_, ?_, ?_⟩
    · rw [step, fee_from_parts_note, hnote]
    · rw [step, fee_from_parts_gasPrice_effNone, h5]
    · intro g hg
      rw [step, hg, h5, fee_from_parts_feeWei]
  · intro p hp hpz
    have hnote : (if truthyInt (hex_to_int tx.gasPrice) then "fallback_gasPrice"
        else "no_price_found") = "fallback_gasPrice" := by
      rw [hp]; simp [truthyInt, hpz]
    refine ⟨?_, ?_⟩
    · rw [step, fee_from_parts_note, hnote]
    · rw [step, fee_from_parts_gasPrice_effNone, hp]
  · intro hp
    have hnote : (if truthyInt (hex_to_int tx.gasPrice) then "fallback_gasPrice"
        else "no_price_found") = "no_price_found" := by rw [hp]; decide
    refine ⟨?_, ?_⟩
    · rw [step, fee_from_parts_note, hnote]
    · rw [step, fee_from_parts_gasPrice_effNone, hp]
  · intro hp
    have hnote : (if truthyInt (hex_to_int tx.gasPrice) then "fallback_gasPrice"
        else "no_price_found") = "no_price_found" := by rw [hp]; decide
    refine ⟨?_, ?_, ?_⟩
    · rw [step, fee_from_parts_note, hnote]
    · rw [step, fee_from_parts_gasPrice_effNone, hp]
    · rw [step, hp, fee_from_parts_feeWei_noPrice]
  · refine ⟨?_, ?_, ?_⟩
    · rw [step2, fee_from_parts_note]
    · rw [step2, fee_from_parts_gasPrice_effNone]
    · rw [step2, fee_from_parts_feeWei_noPrice]

/-- Witness for C6 at the receipt with gasUsed 0x1 and the transaction
    with gas price 0x5: note fallback_gasPrice, price 5, fee 1 * 5. -/
theorem fee_fallback_order_witness :
    (compute_fee_ok (some receiptNoEff) (some { gasPrice := some "0x5" })).note =
      "fallback_gasPrice" ∧
    (compute_fee_ok (some receiptNoEff)
        (some { gasPrice := some "0x5" })).gasPrice = some 5 ∧
    (compute_fee_ok (some receiptNoEff)
        (some { gasPrice := some "0x5" })).feeWei = some (1 * 5) := by
  have h := fee_fallback_order receiptNoEff { gasPrice := some "0x5" } rfl
  exact ⟨(h.1 rfl).1, (h.1 rfl).2.1, (h.1 rfl).2.2 1 (by decide)⟩

/-- C9.  Fee error absorption: a transport exception while fetching the
    receipt, or while fetching the transaction record on the fallback
    path, collapses the resolution to a record with note
    `error:<message>` and every numeric field null; `resolve_fee` is a
    total function, so nothing propagates to the caller. -/
theorem fee_error_absorption (env : FeeEnv) (e : String) :
    (env.receipt = Except.error e →
      resolve_fee env =
        { gasUsed := none, effectiveGasPrice := none, gasPrice := none,
          feeWei := none, feeMATIC := none, note := "error:" ++ e }) ∧
    (∀ r, env.receipt = Except.ok (some r) →
      hex_to_int r.effectiveGasPrice = none →
      env.txdata = Except.error e →
      resolve_fee env =
        { gasUsed := none, effectiveGasPrice := none, gasPrice := none,
          feeWei := none, feeMATIC := none, note := "error:" ++ e }) := by
  constructor
  · intro h
    simp [resolve_fee, compute_fee, h]
  · intro r h1 h2 h3
    simp [resolve_fee, compute_fee, h1, h2, h3]

/-- Witness for C9: a receipt fetch that raises "boom", and a
    transaction fetch that raises "late" behind a price-less receipt. -/
theorem fee_error_absorption_witness :
    resolve_fee envReceiptBoom =
      { gasUsed := none, effectiveGasPrice := none, gasPrice := none,
        feeWei := none, feeMATIC := none, note := "error:" ++ "boom" } ∧
    resolve_fee envTxBoom =
      { gasUsed := none, effectiveGasPrice := none, gasPrice := none,
        feeWei := none, feeMATIC := none, note := "error:" ++ "late" } :=
  ⟨(fee_error_absorption envReceiptBoom "boom").1 rfl,
   (fee_error_absorption envTxBoom "late").2
     { gasUsed := some "0x1", effectiveGasPrice := none } rfl (by decide) rfl⟩

theorem cache_lookup_env (env : String → FeeRecord) (st : EnrichState)
    (hf : CacheFaithful env st) (h : String) (fee : FeeRecord)
    (hl : lookupFee st.cache h = some fee) : fee = env h := by
  cases hfind : List.find? (fun p => p.1 == h) st.cache with
  | none => simp [lookupFee, hfind] at hl
  | some p =>
    simp [lookupFee, hfind] at hl
    have hmem := List.mem_of_find?_eq_some hfind
    have hpred := List.find?_some hfind
    have hph : p.1 = h := by simpa using hpred
    rw [← hl, hf.2.2 p hmem, hph]

theorem lookupFee_none_not_mem (c : List (String × FeeRecord)) (h : String)
    (hl : lookupFee c h = none) : h ∉ c.map Prod.fst := by
  intro hmem
  rcases List.mem_map.mp hmem with ⟨p, hp, hph⟩
  cases hfind : List.find? (fun p => p.1 == h) c with
  | some q => simp [lookupFee, hfind] at hl
  | none =>
    have := List.find?_eq_none.mp hfind p hp
    exact this (by simp [hph])

theorem enrichStep_faithful (env : String → FeeRecord) (st : EnrichState)
    (m : Activity) (hf : CacheFaithful env st) :
    CacheFaithful env (enrichStep env st m).1 := by
  cases hh : getTxHash m with
  | none => simpa [enrichStep, hh] using hf
  | some h =>
    by_cases he : h = ""
    · simpa [enrichStep, hh, he] using hf
    · cases hc : lookupFee st.cache h with
      | some fee => simpa [enrichStep, hh, he, hc] using hf
      | none =>
        have hnm : h ∉ st.fetches := by
          rw [hf.1]
          exact lookupFee_none_not_mem st.cache h hc
        simp only [enrichStep, hh, he, hc]
        refine ⟨?_, ?_, ?_⟩
        · simp [List.map_append, hf.1]
        · simp [List.nodup_append, hf.2.1, hnm]
        · intro p hp
          rcases List.mem_append.mp hp with hp | hp
          · exact hf.2.2 p hp
          · simp at hp
            rw [hp]
  

theorem enrichStep_output (env : String → FeeRecord) (st : EnrichState)
    (m : Activity) (h : String) (hh : getTxHash m = some h) (he : h ≠ "")
    (hf : CacheFaithful env st) : (enrichStep env st m).2 = some (env h) := by
  cases hc : lookupFee st.cache h with
  | some fee =>
    have := cache_lookup_env env st hf h fee hc
    simp [enrichStep, hh, he, hc, this]
  | none => simp [enrichStep, hh, he, hc]

theorem enrichRun_faithful (env : String → FeeRecord) :
    ∀ (ms : List Activity) (st : EnrichState),
      CacheFaithful env st → CacheFaithful env (enrichRun env st ms).1 := by
  intro ms
  induction ms with
  | nil => intro st hf; simpa [enrichRun] using hf
  | cons m ms ih =>
    intro st hf
    simp only [enrichRun]
    exact ih _ (enrichStep_faithful env st m hf)

theorem enrichRun_output (env : String → FeeRecord) :
    ∀ (ms : List Activity) (st : EnrichState),
      CacheFaithful env st →
      ∀ (i : Nat) (h : String), i < ms.length →
        getTxHash (ms.getD i {}) = some h → h ≠ "" →
        (enrichRun env st ms).2.getD i none = some (env h) := by
  intro ms
  induction ms with
  | nil =>
    intro st hf i h hi
    simp at hi
  | cons m ms ih =>
    intro st hf i h hi hh he
    cases i with
    | zero =>
      simp only [List.getD_cons_zero] at hh
      simp only [enrichRun, List.getD_cons_zero]
      exact enrichStep_output env st m h hh he hf
    | succ i =>
      simp only [List.getD_cons_succ] at hh
      simp only [enrichRun, List.getD_cons_succ]
      exact ih _ (enrichStep_faithful env st m hf) i h
        (by simp only [List.length_cons] at hi; omega) hh he

/-- C7.  Fee memoization: over a whole enrichment run starting from the
    empty cache, no transaction hash is ever fetched twice, every cached
    record is exactly the fee resolution of its hash, and the fee record
    attached to any row is determined by its hash alone (the resolution of
    that hash), independent of the row's position: later rows sharing a
    hash reuse the identical cached record. -/
theorem fee_memoization (env : String → FeeRecord) (ms : List Activity) :
    (enrichRun env ⟨[], []⟩ ms).1.fetches.Nodup ∧
    (∀ p ∈ (enrichRun env ⟨[], []⟩ ms).1.cache, p.2 = env p.1) ∧
    (∀ (i : Nat) (h : String), i < ms.length →
      getTxHash (ms.getD i {}) = some h → h ≠ "" →
      (enrichRun env ⟨[], []⟩ ms).2.getD i none = some (env h)) := by
  have hf0 : CacheFaithful env ⟨[], []⟩ := by
    refine ⟨rfl, List.nodup_nil, ?_⟩
    intro p hp
    simp at hp
  have hf := enrichRun_faithful env ms ⟨[], []⟩ hf0
  exact ⟨hf.2.1, hf.2.2,
    fun i h hi hh he => enrichRun_output env ms ⟨[], []⟩ hf0 i h hi hh he⟩

/-- Witness for C7: two activity rows sharing hash 0xabc; the second row
    gets exactly the oracle's record for 0xabc, and the fetch trace has no
    duplicates. -/
theorem fee_memoization_witness :
    (enrichRun witnessFeeOracle ⟨[], []⟩ witnessActivities).1.fetches.Nodup ∧
    (enrichRun witnessFeeOracle ⟨[], []⟩ witnessActivities).2.getD 1 none =
      some (witnessFeeOracle "0xabc") := by
  refine ⟨(fee_memoization witnessFeeOracle witnessActivities).1, ?_⟩
  exact (fee_memoization witnessFeeOracle witnessActivities).2.2 1 "0xabc"
    (by decide) (by decide) (by decide)
